import Mathlib

set_option maxRecDepth 8192

/-!
Verification of the cloudx.sh session launcher against its specification.

The definitions below are a shallow embedding of the TypeScript source:

* `isValidGitHubOwner`, `isValidGitHubRepo` embed the validator regexes of
  `src/index.ts` (GITHUB_OWNER_REGEX, GITHUB_REPO_REGEX plus the extra
  `--` / `.` / `..` checks).
* `escapeShellArg`, `buildEnvVarsStr` embed the environment-variable
  sanitizer of `initializeSession` (`src/services` launcher revision);
  `shellWords` is a small model of POSIX shell word parsing used to state
  the escaping round-trip.
* `initSteps` / `runInitSession` embed the background phase executor
  `initializeSession` (clone, analyze, install, build, start, expose),
  with external effects (sandbox exec results, classifier output) supplied
  by an `InitEnv` oracle and status / log / exec traces recorded in a
  `SessionRecord`.
* `handleGitHubLaunch`, `createSessionSegment`, `lockWait` embed the
  deduplicating launch handler of `src/index.ts`, with every KV read
  supplied by a `LaunchEnv` oracle (reads may observe concurrent writers)
  and every effect recorded in an `Eff` trace.
* `honoLaunchRoute` embeds the Hono-app launch route revision
  (the `/github.com/:owner/:repo` handler that performs rate limiting).
-/

namespace Cloudx

/-! ### Validator (src/index.ts lines 27-36) -/

/-- Character class `[a-zA-Z0-9]` of the validator regexes. -/
def isGitHubAlnum (c : Char) : Bool :=
  c.isAlpha || c.isDigit

/-- Embeds `owner.includes('--')`: two consecutive hyphens occur. -/
def hasDoubleHyphen : List Char → Bool
  | [] => false
  | [_] => false
  | a :: b :: rest => (a == '-' && b == '-') || hasDoubleHyphen (b :: rest)

/-- Anchored match of `GITHUB_OWNER_REGEX`:
`^[a-zA-Z0-9](?:[a-zA-Z0-9-]{0,37}[a-zA-Z0-9])?$`.
A one-character string needs one alphanumeric; otherwise the first and last
characters are alphanumeric and the middle is at most 37 characters drawn
from `[a-zA-Z0-9-]`. -/
def ownerRegexAccepts : List Char → Bool
  | [] => false
  | c :: rest =>
    isGitHubAlnum c &&
      match rest.reverse with
      | [] => true
      | lastC :: midRev =>
        isGitHubAlnum lastC && decide (midRev.length ≤ 37) &&
          midRev.all (fun d => isGitHubAlnum d || d == '-')

/-- `isValidGitHubOwner` from src/index.ts: the regex test plus the
`!owner.includes('--')` check. -/
def isValidGitHubOwner (owner : String) : Bool :=
  ownerRegexAccepts owner.data && !hasDoubleHyphen owner.data

/-- Character class `[a-zA-Z0-9._-]` of `GITHUB_REPO_REGEX`. -/
def isRepoChar (c : Char) : Bool :=
  isGitHubAlnum c || c == '.' || c == '_' || c == '-'

/-- `isValidGitHubRepo` from src/index.ts: `^[a-zA-Z0-9._-]{1,100}$` plus
`repo !== '.' && repo !== '..'`. -/
def isValidGitHubRepo (repo : String) : Bool :=
  decide (1 ≤ repo.data.length) && decide (repo.data.length ≤ 100) &&
    repo.data.all isRepoChar && !(repo == ".") && !(repo == "..")

/-- Owner grammar as worded by the specification: 1-39 characters, each
alphanumeric or a hyphen, no leading hyphen, no trailing hyphen, no doubled
hyphen.  Used only to compare the implementation against the spec text. -/
def ownerSpec (cs : List Char) : Bool :=
  decide (1 ≤ cs.length) && decide (cs.length ≤ 39) &&
    cs.all (fun c => isGitHubAlnum c || c == '-') &&
    (match cs.head? with
     | some c => !(c == '-')
     | none => false) &&
    (match cs.getLast? with
     | some c => !(c == '-')
     | none => false) &&
    !hasDoubleHyphen cs

/-- Repo grammar as worded by the specification: 1-100 characters drawn
from alphanumerics plus `.`, `_`, `-`, and not `.` or `..`. -/
def repoSpec (repo : String) : Bool :=
  decide (1 ≤ repo.data.length) && decide (repo.data.length ≤ 100) &&
    repo.data.all isRepoChar && !(repo == ".") && !(repo == "..")

/-! ### Shell-escaping model (initializeSession, launcher revision) -/

/-- Shell metacharacters: a character that, unquoted, would terminate the
current command word with more input following, start another command, or
trigger an expansion (`;`, `&`, `|`, redirections, subshells, command or
variable substitution, globbing, comments).  `Char.ofNat 96` is the
backquote character. -/
def shellMetaChar (c : Char) : Bool :=
  c == ';' || c == '&' || c == '|' || c == '<' || c == '>' ||
  c == '(' || c == ')' || c == '$' || c == Char.ofNat 96 ||
  c == '"' || c == '*' || c == '?' || c == '~' || c == '#' ||
  c == '\n' || c == '\t'

/-- Word splitting for the fragment language actually emitted by the
launcher: plain characters, single-quoted segments and backslash escapes.
`shellWordsAux input inSingleQuote wordStarted curRev` returns the words of
`input` (each as a character list), or `none` when the input has an
unclosed quote, a trailing backslash, or an unquoted metacharacter — i.e.
a `some` result certifies that the input is a plain sequence of words with
no further command and no expansion. -/
def shellWordsAux : List Char → Bool → Bool → List Char → Option (List (List Char))
  | [], true, _, _ => none
  | [], false, started, cur => some (if started then [cur.reverse] else [])
  | c :: rest, true, _, cur =>
    if c == '\'' then shellWordsAux rest false true cur
    else shellWordsAux rest true true (c :: cur)
  | c :: rest, false, started, cur =>
    if c == '\'' then shellWordsAux rest true true cur
    else if c == '\\' then
      match rest with
      | [] => none
      | d :: rest2 => shellWordsAux rest2 false true (d :: cur)
    else if c == ' ' then
      (shellWordsAux rest false false []).map
        (fun ws => if started then cur.reverse :: ws else ws)
    else if shellMetaChar c then none
    else shellWordsAux rest false true (c :: cur)

/-- Parse a command fragment into its words (see `shellWordsAux`). -/
def shellWords (s : String) : Option (List (List Char)) :=
  shellWordsAux s.data false false []

/-- Character-level body of `arg.replace(/'/g, "'\\''")` followed by the
closing quote: each embedded single quote becomes quote-backslash-quote-
quote, and a final single quote is appended. -/
def escAux : List Char → List Char
  | [] => ['\'']
  | c :: cs =>
    if c == '\'' then '\'' :: '\\' :: '\'' :: '\'' :: escAux cs
    else c :: escAux cs

/-- `escapeShellArg` from `initializeSession`: wrap in single quotes,
rewriting each embedded single quote as quote-backslash-quote-quote. -/
def escapeShellArg (arg : String) : String :=
  String.mk ('\'' :: escAux arg.data)

/-- Head class of the env-var name regex `/^[A-Z_][A-Z0-9_]*$/i`. -/
def isEnvNameHead (c : Char) : Bool :=
  c.isAlpha || c == '_'

/-- Tail class of the env-var name regex `/^[A-Z_][A-Z0-9_]*$/i`. -/
def isEnvNameTail (c : Char) : Bool :=
  c.isAlpha || c.isDigit || c == '_'

/-- The env-var name test `/^[A-Z_][A-Z0-9_]*$/i.test(k)` from
`initializeSession` (case-insensitive, so equivalent to
`^[A-Za-z_][A-Za-z0-9_]*$`). -/
def envVarNameOk (k : String) : Bool :=
  match k.data with
  | [] => false
  | c :: rest => isEnvNameHead c && rest.all isEnvNameTail

/-- A single quote, as a string. -/
def squote : String :=
  String.mk ['\'']

/-- The `export K=<escaped value>` fragment emitted for one environment
variable by `initializeSession`. -/
def exportFragment (k v : String) : String :=
  "export " ++ k ++ "=" ++ escapeShellArg v

/-- Embeds `Object.entries(envVars).map(...).join(' && ')` from
`initializeSession`: each name is validated (the first invalid name
aborts with the thrown message), each value is escaped, and the
fragments are joined with `&&`. -/
def buildEnvVarsStr : List (String × String) → Except String String
  | [] => Except.ok ""
  | kv :: rest =>
    if !envVarNameOk kv.1 then
      Except.error ("Invalid environment variable name: " ++ kv.1)
    else
      match buildEnvVarsStr rest with
      | Except.error e => Except.error e
      | Except.ok s =>
        Except.ok (if s == "" then exportFragment kv.1 kv.2
                   else exportFragment kv.1 kv.2 ++ " && " ++ s)

/-- The env-var pair rendering `${k}="${v}"` of
`SessionHandler.startApplication` (the session-handler revision): plain
double-quote wrapping with no escaping. -/
def sessionHandlerEnvPair (k v : String) : String :=
  k ++ "=" ++ "\"" ++ v ++ "\""

/-! ### Session phase executor (initializeSession, src/services launcher
revision, ai-analyzer.ts lines 1125-1286) -/

/-- The `SessionStatus` union type from src/types. -/
inductive SessionStatus
  | initializing
  | cloning
  | analyzing
  | installing
  | building
  | starting
  | running
  | stopped
  | error
deriving DecidableEq, Repr

/-- Log levels of `LogEntry` from src/types. -/
inductive LogLevel
  | info
  | warn
  | error
  | debug
deriving DecidableEq, Repr

/-- A log entry.  `phase` is ghost instrumentation: the session status at
the moment the entry was appended (the source entry carries a timestamp
instead; the claims speak of entries appended during a given phase). -/
structure LogEntry where
  level : LogLevel
  message : String
  phase : SessionStatus
deriving DecidableEq, Repr

/-- Result of one `sandbox.exec` call, as read by the phase executor. -/
structure ExecResult where
  success : Bool
  exitCode : Int
  stderr : String
deriving DecidableEq, Repr

/-- `EnvironmentConfig` from src/types, restricted to the fields the phase
executor reads. -/
structure EnvironmentConfig where
  name : String
  port : Nat
  installCommand : Option String
  buildCommand : Option String
  startCommand : String
  envVars : List (String × String)
  previewable : Bool
deriving DecidableEq, Repr

/-- Oracle for the external collaborators of one `initializeSession` run:
the sandbox exec results per phase, the classifier output, the rendering
of the confidence percentage, and the port-expose outcome (`some url` on
success, `none` when `exposePort` throws, with `exposeError` the rendering
of the caught error). -/
structure InitEnv where
  cloneResult : ExecResult
  environment : EnvironmentConfig
  confidencePct : String
  installResult : ExecResult
  buildResult : ExecResult
  exposeResult : Option String
  exposeError : String
deriving Repr

/-- Ghost trace of `sandbox.exec` calls, tagged by call site. -/
inductive SandboxExec
  | cloneE (cmd : String)
  | installE (cmd : String)
  | buildE (cmd : String)
  | startE (cmd : String)
deriving DecidableEq, Repr

/-- The durable session record as mutated by the phase executor, plus two
ghost traces: `statusTrace` lists every status the record has held
(including the initial one) and `execs` lists every sandbox exec call. -/
structure SessionRecord where
  status : SessionStatus
  environment : Option EnvironmentConfig
  previewUrl : Option String
  logs : List LogEntry
  error : Option String
  statusTrace : List SessionStatus
  execs : List SandboxExec
deriving DecidableEq, Repr

/-- Embeds `updateSession({ status })`. -/
def setStatus (st : SessionRecord) (s : SessionStatus) : SessionRecord :=
  { st with status := s, statusTrace := st.statusTrace ++ [s] }

/-- Embeds `addLog(level, message)`. -/
def addLog (st : SessionRecord) (lvl : LogLevel) (msg : String) : SessionRecord :=
  { st with logs := st.logs ++ [{ level := lvl, message := msg, phase := st.status }] }

/-- Record one `sandbox.exec` call in the ghost trace. -/
def recordExec (st : SessionRecord) (e : SandboxExec) : SessionRecord :=
  { st with execs := st.execs ++ [e] }

/-- Character-level `startCmd.replace(/'/g, "'\\''")` (the outer escaping
of the `sh -c` wrapper). -/
def outerEscAux : List Char → List Char
  | [] => []
  | c :: cs =>
    if c == '\'' then '\'' :: '\\' :: '\'' :: '\'' :: outerEscAux cs
    else c :: outerEscAux cs

/-- String form of `outerEscAux`. -/
def outerEscape (s : String) : String :=
  String.mk (outerEscAux s.data)

/-- Step 3 of `initializeSession`: install dependencies when an install
command exists.  A failed install (`!success` with non-zero exit) only
appends a warn entry; execution always continues. -/
def installPhase (env : InitEnv) (st : SessionRecord) : SessionRecord :=
  match env.environment.installCommand with
  | none => st
  | some ic =>
    let st := setStatus st .installing
    let st := addLog st .info ("Installing dependencies: " ++ ic)
    let st := recordExec st (.installE ("cd /workspace/repo && " ++ ic))
    if !env.installResult.success && env.installResult.exitCode != 0 then
      addLog st .warn ("Install completed with warnings")
    else
      addLog st .info ("Dependencies installed successfully")

/-- Step 4 of `initializeSession`: build when a build command exists.  A
failed build throws `Build failed: <stderr>`. -/
def buildPhase (env : InitEnv) (st : SessionRecord) :
    Except (SessionRecord × String) SessionRecord :=
  match env.environment.buildCommand with
  | none => Except.ok st
  | some bc =>
    let st := setStatus st .building
    let st := addLog st .info ("Building project: " ++ bc)
    let st := recordExec st (.buildE ("cd /workspace/repo && " ++ bc))
    if !env.buildResult.success then
      Except.error (st, "Build failed: " ++ env.buildResult.stderr)
    else
      Except.ok (addLog st .info ("Build completed successfully"))

/-- Step 5 of `initializeSession`: build the env-var string (an invalid
name throws), start the application detached under the `nohup sh -c`
wrapper, optionally expose the port (failure only warns), then transition
to `running` with the preview URL (or null) recorded. -/
def startPhase (env : InitEnv) (st : SessionRecord) :
    Except (SessionRecord × String) SessionRecord :=
  let st := setStatus st .starting
  let st := addLog st .info ("Starting application: " ++ env.environment.startCommand)
  match buildEnvVarsStr env.environment.envVars with
  | Except.error m => Except.error (st, m)
  | Except.ok envVarsStr =>
    let startCmd :=
      if envVarsStr != "" then
        "cd /workspace/repo && " ++ envVarsStr ++ " && " ++ env.environment.startCommand
      else
        "cd /workspace/repo && " ++ env.environment.startCommand
    let st := recordExec st
      (.startE ("nohup sh -c " ++ squote ++ outerEscape startCmd ++ squote ++
        " > /tmp/app.log 2>&1 &"))
    let stepExpose : SessionRecord × Option String :=
      if env.environment.previewable && env.environment.port != 0 then
        match env.exposeResult with
        | some url => (addLog st .info ("Preview available at: " ++ url), some url)
        | none =>
          (addLog st .warn ("Could not expose port " ++ toString env.environment.port ++
            ": " ++ env.exposeError), none)
      else (st, none)
    let st := stepExpose.1
    let st := setStatus st .running
    let st := { st with previewUrl := stepExpose.2 }
    Except.ok (addLog st .info ("Application started successfully"))

/-- The body of `initializeSession`'s try block: clone (failure throws
`Clone failed: <stderr>`), analyze (record the classifier's environment and
confidence), then install, build and start. -/
def initSteps (repoFullName : String) (env : InitEnv) (st : SessionRecord) :
    Except (SessionRecord × String) SessionRecord :=
  let st := setStatus st .cloning
  let st := addLog st .info ("Cloning repository: " ++ repoFullName)
  let st := recordExec st
    (.cloneE ("git clone --depth 1 https://github.com/" ++ repoFullName ++
      ".git /workspace/repo"))
  if !env.cloneResult.success then
    Except.error (st, "Clone failed: " ++ env.cloneResult.stderr)
  else
    let st := addLog st .info ("Repository cloned successfully")
    let st := setStatus st .analyzing
    let st := addLog st .info ("Analyzing repository structure")
    let st := { st with environment := some env.environment }
    let st := addLog st .info ("Detected environment: " ++ env.environment.name)
    let st := addLog st .info ("Confidence: " ++ env.confidencePct ++ "%")
    let st := installPhase env st
    match buildPhase env st with
    | Except.error e => Except.error e
    | Except.ok st => startPhase env st

/-- `initializeSession`: run the phase sequence; any thrown error is caught
at the top, the session transitions to `error` with the message recorded in
the `error` field, and an error log entry is appended. -/
def runInitSession (repoFullName : String) (env : InitEnv) (st : SessionRecord) :
    SessionRecord :=
  match initSteps repoFullName env st with
  | Except.ok st => st
  | Except.error (st, msg) =>
    let st := setStatus st .error
    let st := { st with error := some msg }
    addLog st .error ("Session failed: " ++ msg)

/-- The initial session record written by the launch route before the
background task starts (status `initializing`, one initial log entry). -/
def initialSession (repoFullName : String) : SessionRecord :=
  { status := .initializing
    environment := none
    previewUrl := none
    logs := [{ level := .info
               message := "Initializing session for " ++ repoFullName
               phase := .initializing }]
    error := none
    statusTrace := [.initializing]
    execs := [] }

/-! ### Launch handler (src/index.ts lines 51-263) -/

/-- Outcome of the GitHub metadata fetch in `isRepoPublic`: an HTTP
response with a status code and the `private` flag of the decoded body
(only read when the status is 200), or a thrown network error. -/
inductive FetchOutcome
  | response (status : Nat) (priv : Bool)
  | networkError
deriving DecidableEq, Repr

/-- Return value of `isRepoPublic`. -/
structure RepoCheck where
  accessible : Bool
  errorMsg : Option String
deriving DecidableEq, Repr

/-- `isRepoPublic` from src/index.ts: 200 with `private` set blocks, 200
public allows, 404 blocks, 403 (rate limited) allows anyway, any other
status blocks, and a network error allows anyway. -/
def isRepoPublic : FetchOutcome → RepoCheck
  | .networkError => { accessible := true, errorMsg := none }
  | .response status priv =>
    if status == 200 then
      if priv then
        { accessible := false
          errorMsg := some ("This repository is private. Only public repositories are supported.") }
      else
        { accessible := true, errorMsg := none }
    else if status == 404 then
      { accessible := false
        errorMsg := some ("Repository not found. Please check the owner and repository name.") }
    else if status == 403 then
      { accessible := true, errorMsg := none }
    else
      { accessible := false
        errorMsg := some ("Failed to verify repository (HTTP " ++ toString status ++ ")") }

/-- Oracle for one `handleGitHubLaunch` execution.  Every KV read is a
separate oracle field because concurrent requests may write between the
awaits: `getSession0` / `getLock0` are the first two reads,
`pollSession i` / `pollLock i` are the reads of wait-loop iteration `i`,
`getSessionFinal` is the read after a timed-out wait, and
`getSessionRecheck` is the double-check read after the lock is written.
`elapsed i` is `Date.now() - start` at the top of iteration `i`;
`createThrows` models a throw inside the creation try block. -/
structure LaunchEnv where
  fetchOutcome : FetchOutcome
  getSession0 : Option String
  getLock0 : Option String
  pollSession : Nat → Option String
  pollLock : Nat → Option String
  elapsed : Nat → Nat
  getSessionFinal : Option String
  getSessionRecheck : Option String
  lockValue : String
  sessionId : String
  createThrows : Bool
  now : Nat

/-- Result of the lock wait loop (src/index.ts lines 185-206):
a session id appeared, the lock disappeared (proceed to acquisition),
the bounded wait was exhausted, or the model ran out of fuel (the real
loop would still be polling; never reached when each iteration takes at
least one 500ms sleep). -/
inductive WaitOutcome
  | found (id : String)
  | noLock
  | timedOut
  | fuelOut
deriving DecidableEq, Repr

/-- The wait loop, iteration `i` onwards: stop with `timedOut` once
`elapsed i ≥ 5000` (maxWaitMs), otherwise sleep 500ms (pollIntervalMs),
read the session key (a hit returns it), read the lock key (absence
proceeds to acquisition), else continue.  The second component counts the
iterations that polled. -/
def lockWaitAux (env : LaunchEnv) : Nat → Nat → WaitOutcome × Nat
  | 0, i => (.fuelOut, i)
  | fuel + 1, i =>
    if env.elapsed i ≥ 5000 then (.timedOut, i)
    else
      match env.pollSession i with
      | some id => (.found id, i + 1)
      | none =>
        match env.pollLock i with
        | none => (.noLock, i + 1)
        | some _ => lockWaitAux env fuel (i + 1)

/-- The wait loop from iteration 0.  Fuel 11 suffices: when every
iteration takes at least 500ms, `elapsed 10 ≥ 5000` forces a timeout. -/
def lockWait (env : LaunchEnv) : WaitOutcome × Nat :=
  lockWaitAux env 11 0

/-- One externally visible effect of the launch handler: the GitHub
metadata fetch, a KV read / write / delete, or scheduling the background
initialization via `ctx.waitUntil`. -/
inductive Eff
  | fetchRepo
  | kvGet (key : String)
  | kvPut (key value : String)
  | kvDelete (key : String)
  | waitUntilInit (sessionId : String)
  | sandboxExec (cmd : String)
deriving DecidableEq, Repr

/-- HTTP-level outcome of the launch handler: `badRequest` is the 400
JSON error, `redirect` the 302 to the session page, `unavailable` the 503
retry-conflict response, `thrown` a propagated exception; `diverged` is
the fuel-exhaustion artifact of the wait-loop model, unreachable under
real timing. -/
inductive Outcome
  | badRequest (msg : String)
  | redirect (id : String)
  | unavailable
  | thrown
  | diverged
deriving DecidableEq, Repr

/-- Rendering of the initial session info JSON written under
`info:<sessionId>` (field order of the source object). -/
def sessionInfoValue (id repoFullName repoUrl : String) (now : Nat) : String :=
  "id=" ++ id ++ ";repo=" ++ repoFullName ++ ";repoUrl=" ++ repoUrl ++
    ";createdAt=" ++ toString now ++ ";status=initializing"

/-- Lines 221-262 of src/index.ts: write the lock, re-check the session
key (a hit deletes the lock and redirects to the existing id), then create
the session (session mapping, info record), delete the lock and schedule
background initialization; a throw inside the try block deletes the lock
and rethrows. -/
def createSessionSegment (env : LaunchEnv) (cacheKey lockKey repoFullName repoUrl : String) :
    Outcome × List Eff :=
  match env.getSessionRecheck with
  | some id =>
    (.redirect id, [.kvPut lockKey env.lockValue, .kvGet cacheKey, .kvDelete lockKey])
  | none =>
    if env.createThrows then
      (.thrown, [.kvPut lockKey env.lockValue, .kvGet cacheKey, .kvDelete lockKey])
    else
      (.redirect env.sessionId,
       [.kvPut lockKey env.lockValue,
        .kvGet cacheKey,
        .kvPut cacheKey env.sessionId,
        .kvPut ("info:" ++ env.sessionId)
          (sessionInfoValue env.sessionId repoFullName repoUrl env.now),
        .kvDelete lockKey,
        .waitUntilInit env.sessionId])

/-- KV reads performed by the first `n` wait-loop iterations: every
iteration reads the session key, and additionally reads the lock key when
no session was found. -/
def pollEffs (env : LaunchEnv) (cacheKey lockKey : String) : Nat → List Eff
  | 0 => []
  | n + 1 =>
    pollEffs env cacheKey lockKey n ++
      match env.pollSession n with
      | some _ => [.kvGet cacheKey]
      | none => [.kvGet cacheKey, .kvGet lockKey]

/-- `handleGitHubLaunch` from src/index.ts, for an owner / repo pair
already extracted from the path: validate owner then repo (400 before any
effect), check repository accessibility (400 when blocked), fast-path
session lookup, lock inspection with bounded wait, then the
create-session segment.  Returns the HTTP outcome and the effect trace. -/
def handleGitHubLaunch (owner repo : String) (env : LaunchEnv) : Outcome × List Eff :=
  if !isValidGitHubOwner owner then
    (.badRequest ("Invalid GitHub owner name"), [])
  else if !isValidGitHubRepo repo then
    (.badRequest ("Invalid GitHub repository name"), [])
  else
    let repoCheck := isRepoPublic env.fetchOutcome
    if !repoCheck.accessible then
      (.badRequest (repoCheck.errorMsg.getD ""), [.fetchRepo])
    else
      let repoFullName := owner ++ "/" ++ repo
      let repoUrl := "https://github.com/" ++ repoFullName ++ ".git"
      let cacheKey := "session:" ++ repoFullName
      let lockKey := "lock:" ++ repoFullName
      let effs1 : List Eff := [.fetchRepo, .kvGet cacheKey]
      match env.getSession0 with
      | some id => (.redirect id, effs1)
      | none =>
        let effs2 := effs1 ++ [.kvGet lockKey]
        match env.getLock0 with
        | none =>
          let seg := createSessionSegment env cacheKey lockKey repoFullName repoUrl
          (seg.1, effs2 ++ seg.2)
        | some _ =>
          let w := lockWait env
          let effsW := effs2 ++ pollEffs env cacheKey lockKey w.2
          match w.1 with
          | .found id => (.redirect id, effsW)
          | .noLock =>
            let seg := createSessionSegment env cacheKey lockKey repoFullName repoUrl
            (seg.1, effsW ++ seg.2)
          | .timedOut =>
            let effsT := effsW ++ [.kvGet cacheKey]
            match env.getSessionFinal with
            | some id => (.redirect id, effsT)
            | none => (.unavailable, effsT)
          | .fuelOut => (.diverged, effsW)

/-- Apply one effect to a key-value store (reads and scheduling leave the
store unchanged). -/
def applyEff (store : String → Option String) : Eff → (String → Option String)
  | .kvPut k v => fun q => if q == k then some v else store q
  | .kvDelete k => fun q => if q == k then none else store q
  | _ => store

/-- Apply a trace of effects to a key-value store, left to right. -/
def applyEffs (store : String → Option String) : List Eff → (String → Option String)
  | [] => store
  | e :: es => applyEffs (applyEff store e) es

/-! ### The Hono-app launch route (ai-analyzer.ts lines 1017-1122) -/

/-- Oracle for one execution of the Hono launch route: the three KV reads
(IP rate counter, per-repo session counter, active-session index), the
liveness probe on an existing session (`some true` alive, `some false`
probe returned failure, `none` probe threw), and the generated id. -/
structure HonoEnv where
  ipSessionCount : Option String
  repoSessionCount : Option String
  getActive : Option String
  aliveResult : Option Bool
  sessionId : String
  now : Nat

/-- HTTP-level outcome of the Hono launch route. -/
inductive HonoOutcome
  | rateLimited (msg : String)
  | redirect (path : String)
  | sessionPage (id : String)
deriving DecidableEq, Repr

/-- JS `parseInt` on a stored counter, as used by the route: digit
strings parse to their value; anything else is a not-a-number whose
comparisons fail, modelled as 0. -/
def parseCount (s : String) : Nat :=
  if s.data ≠ [] ∧ s.data.all (fun c => c.isDigit) then
    s.data.foldl (fun n c => n * 10 + (c.toNat - ('0').toNat)) 0
  else 0

/-- The Hono-app launch route `app.get('/github.com/:owner/:repo{.*}')`:
no owner / repo validation is performed; the route reads the IP rate
counter, the per-repo session counter and the active-session index, probes
an existing session for liveness, then creates a session (counter
increments, active mapping, session record) and schedules the background
initialization.  Returns the outcome and the effect trace. -/
def honoLaunchRoute (owner repoWithPath clientIP : String) (env : HonoEnv) :
    HonoOutcome × List Eff :=
  let repo := String.mk (repoWithPath.data.takeWhile (fun c => !(c == '/')))
  let repoFullName := owner ++ "/" ++ repo
  let ipRateLimitKey := "session_rate:" ++ clientIP
  let effs0 : List Eff := [.kvGet ipRateLimitKey]
  let ipOver :=
    match env.ipSessionCount with
    | some s => decide (parseCount s ≥ 5)
    | none => false
  if ipOver then
    (.rateLimited ("Rate limit exceeded. Maximum 5 session creations per hour per IP."),
     effs0)
  else
    let repoSessionCountKey := "repo_sessions:" ++ repoFullName
    let effs1 := effs0 ++ [.kvGet repoSessionCountKey]
    let repoCount := parseCount ((env.repoSessionCount).getD "0")
    if repoCount ≥ 3 then
      (.rateLimited ("Maximum concurrent sessions for this repository reached. Please try again later."),
       effs1)
    else
      let cacheKey := "active:" ++ repoFullName
      let effs2 := effs1 ++ [.kvGet cacheKey]
      let aliveProbe : List Eff :=
        match env.getActive with
        | some _ => [.sandboxExec ("echo \"alive\"")]
        | none => []
      let deadCleanup : List Eff :=
        match env.getActive, env.aliveResult with
        | some _, none =>
          .kvDelete cacheKey ::
            (if 0 < repoCount then
              [.kvPut repoSessionCountKey (toString (repoCount - 1))]
            else [])
        | _, _ => []
      match env.getActive, env.aliveResult with
      | some existingId, some true =>
        (.redirect ("/session/" ++ existingId), effs2 ++ aliveProbe)
      | _, _ =>
        let newIpCount :=
          match env.ipSessionCount with
          | some s => parseCount s + 1
          | none => 1
        (.sessionPage env.sessionId,
         effs2 ++ aliveProbe ++ deadCleanup ++
           [.kvPut repoSessionCountKey (toString (repoCount + 1)),
            .kvPut ipRateLimitKey (toString newIpCount),
            .kvPut cacheKey env.sessionId,
            .kvPut ("session:" ++ env.sessionId)
              (sessionInfoValue env.sessionId repoFullName
                ("https://github.com/" ++ repoFullName ++ ".git") env.now),
            .waitUntilInit env.sessionId])

/-! ### Concrete instances used by the witnesses -/

/-- The value `O'Brien; rm -rf /` of the specification's escaping example,
written as a character list. -/
def obrienValue : String :=
  String.mk ['O', '\'', 'B', 'r', 'i', 'e', 'n', ';', ' ', 'r', 'm', ' ', '-', 'r', 'f', ' ', '/']

/-- A successful exec result. -/
def okExec : ExecResult :=
  { success := true, exitCode := 0, stderr := "" }

/-- A failed exec result with non-zero exit code. -/
def failExec : ExecResult :=
  { success := false, exitCode := 1, stderr := "boom" }

/-- A plain Node.js environment configuration with no install or build
command. -/
def baseEnvConfig : EnvironmentConfig :=
  { name := "Node.js"
    port := 3000
    installCommand := none
    buildCommand := none
    startCommand := "npm start"
    envVars := []
    previewable := true }

/-- A phase-executor oracle in which every external step succeeds. -/
def baseInitEnv : InitEnv :=
  { cloneResult := okExec
    environment := baseEnvConfig
    confidencePct := "90"
    installResult := okExec
    buildResult := okExec
    exposeResult := some ("https://preview.example")
    exposeError := "" }

/-- A launch oracle: repository public, no existing session, no lock, no
concurrent writers, ideal 500ms timing. -/
def baseLaunchEnv : LaunchEnv :=
  { fetchOutcome := .response 200 false
    getSession0 := none
    getLock0 := none
    pollSession := fun _ => none
    pollLock := fun _ => none
    elapsed := fun i => 500 * i
    getSessionFinal := none
    getSessionRecheck := none
    lockValue := "lock-token"
    sessionId := "sid-fresh"
    createThrows := false
    now := 0 }

/-- A Hono-route oracle with empty counters and no existing session. -/
def honoEnvC5 : HonoEnv :=
  { ipSessionCount := none
    repoSessionCount := none
    getActive := none
    aliveResult := none
    sessionId := "sid-new"
    now := 0 }

/-! ## Theorems -/

/-- A hyphen is not alphanumeric, so membership in the owner character
class together with not being a hyphen is exactly being alphanumeric. -/
theorem ownerClass_split (c : Char) :
    ((isGitHubAlnum c || c == '-') && !(c == '-')) = isGitHubAlnum c := by
  cases hc : c == '-'
  · simp [hc]
  · have hce : c = '-' := eq_of_beq hc
    subst hce
    decide

/-- The owner validator (regex plus the doubled-hyphen check) agrees with
the grammar as worded in the specification. -/
theorem owner_regex_eq_spec (cs : List Char) :
    (ownerRegexAccepts cs && !hasDoubleHyphen cs) = ownerSpec cs := by
  match cs with
  | [] => rfl
  | c :: rest =>
    match hrev : rest.reverse with
    | [] =>
      have hr : rest = [] := by
        have h1 := congrArg List.reverse hrev
        simpa using h1
      subst hr
      cases hc : c == '-'
      · simp [ownerRegexAccepts, ownerSpec, hasDoubleHyphen, hc]
      · have hce : c = '-' := eq_of_beq hc
        subst hce
        decide
    | lastC :: midRev =>
      have hr : rest = midRev.reverse ++ [lastC] := by
        have h1 := congrArg List.reverse hrev
        simpa [List.reverse_cons] using h1
      subst hr
      have hgl : (c :: (midRev.reverse ++ [lastC])).getLast? = some lastC := by
        rw [show c :: (midRev.reverse ++ [lastC]) = (c :: midRev.reverse) ++ [lastC] by simp]
        exact List.getLast?_concat _
      have e1 : decide (1 ≤ (c :: (midRev.reverse ++ [lastC])).length) = true := by
        simp
      have hlen : (c :: (midRev.reverse ++ [lastC])).length = midRev.length + 2 := by
        simp
      have e2 : decide ((c :: (midRev.reverse ++ [lastC])).length ≤ 39) =
          decide (midRev.length ≤ 37) := by
        refine decide_eq_decide.mpr ?_
        rw [hlen]
        omega
      simp only [ownerRegexAccepts, ownerSpec, hgl, e1, e2, List.head?_cons,
        List.reverse_append, List.reverse_reverse, List.reverse_cons,
        List.reverse_nil, List.nil_append, List.singleton_append,
        List.all_cons, List.all_append, List.all_reverse, List.all_nil,
        Bool.true_and, Bool.and_true]
      cases hc : c == '-' <;> cases hl : lastC == '-'
      · simp only [hc, hl, Bool.or_false, Bool.not_false, Bool.and_true]
        cases isGitHubAlnum c <;> cases isGitHubAlnum lastC <;>
          cases decide (midRev.length ≤ 37) <;>
          cases midRev.all (fun d => isGitHubAlnum d || d == '-') <;>
          cases hasDoubleHyphen (c :: (midRev.reverse ++ [lastC])) <;> rfl
      · have hle : lastC = '-' := eq_of_beq hl
        subst hle
        simp [show isGitHubAlnum '-' = false from by decide]
      · have hce : c = '-' := eq_of_beq hc
        subst hce
        simp [show isGitHubAlnum '-' = false from by decide]
      · have hce : c = '-' := eq_of_beq hc
        subst hce
        simp [show isGitHubAlnum '-' = false from by decide]

/-- C9: the owner validator accepts `a`, `a-b`, `A1` and rejects `-abc`,
`abc-`, `a--b`, any 40-character string and the empty string; the repo
validator accepts `my.repo_v2` and rejects `.`, `..` and any 101-character
string; and in general the owner validator recognises exactly the 1-39
character alphanumeric-and-single-hyphen strings with no leading, trailing
or doubled hyphen, while the repo validator recognises exactly the 1-100
character strings over alphanumerics plus `.`, `_`, `-`, excluding `.`
and `..`. -/
theorem validator_grammar :
    (isValidGitHubOwner "a" = true ∧ isValidGitHubOwner "a-b" = true ∧
     isValidGitHubOwner "A1" = true ∧ isValidGitHubOwner "-abc" = false ∧
     isValidGitHubOwner "abc-" = false ∧ isValidGitHubOwner "a--b" = false ∧
     isValidGitHubOwner (String.mk (List.replicate 40 'a')) = false ∧
     isValidGitHubOwner "" = false) ∧
    (isValidGitHubRepo "my.repo_v2" = true ∧ isValidGitHubRepo "." = false ∧
     isValidGitHubRepo ".." = false ∧
     isValidGitHubRepo (String.mk (List.replicate 101 'a')) = false) ∧
    (∀ owner : String, isValidGitHubOwner owner = ownerSpec owner.data) ∧
    (∀ repo : String, isValidGitHubRepo repo = repoSpec repo) := by
  refine ⟨by decide, by decide, fun owner => owner_regex_eq_spec owner.data, fun repo => rfl⟩

/-- The wait loop never reads the metadata-fetch outcome. -/
theorem lockWaitAux_fetch_irrel (env : LaunchEnv) (fo : FetchOutcome) :
    ∀ fuel i, lockWaitAux { env with fetchOutcome := fo } fuel i = lockWaitAux env fuel i := by
  intro fuel
  induction fuel with
  | zero => intro i; rfl
  | succ fuel ih =>
    intro i
    simp only [lockWaitAux]
    rw [ih]

/-- The wait-loop read trace never reads the metadata-fetch outcome. -/
theorem pollEffs_fetch_irrel (env : LaunchEnv) (fo : FetchOutcome) (ck lk : String) :
    ∀ n, pollEffs { env with fetchOutcome := fo } ck lk n = pollEffs env ck lk n := by
  intro n
  induction n with
  | zero => rfl
  | succ n ih =>
    simp only [pollEffs]
    rw [ih]

/-- The create-session segment never reads the metadata-fetch outcome. -/
theorem createSessionSegment_fetch_irrel (env : LaunchEnv) (fo : FetchOutcome)
    (ck lk r u : String) :
    createSessionSegment { env with fetchOutcome := fo } ck lk r u =
      createSessionSegment env ck lk r u := rfl

/-- After the accessibility gate, the launch handler depends on the fetch
outcome only through `isRepoPublic`. -/
theorem handleGitHubLaunch_fetch_congr (owner repo : String) (env : LaunchEnv)
    (a b : FetchOutcome) (hab : isRepoPublic a = isRepoPublic b) :
    handleGitHubLaunch owner repo { env with fetchOutcome := a } =
      handleGitHubLaunch owner repo { env with fetchOutcome := b } := by
  unfold handleGitHubLaunch
  simp only [lockWaitAux_fetch_irrel, createSessionSegment_fetch_irrel,
    pollEffs_fetch_irrel, lockWait, hab]

/-- C10: `isRepoPublic` fails open — an HTTP 403 (rate limited) response
and a thrown network error both report the repository as accessible and
the launch proceeds exactly as for a public repository, while a 404, a
200 response marked private, and any other non-200 status block the
launch with a 400 response. -/
theorem repo_check_fail_open :
    (∀ p : Bool, isRepoPublic (.response 403 p) = { accessible := true, errorMsg := none }) ∧
    (isRepoPublic .networkError = { accessible := true, errorMsg := none }) ∧
    (∀ owner repo : String, ∀ env : LaunchEnv, ∀ p : Bool,
      handleGitHubLaunch owner repo { env with fetchOutcome := .response 403 p } =
        handleGitHubLaunch owner repo { env with fetchOutcome := .networkError }) ∧
    (∀ owner repo : String, ∀ env : LaunchEnv, ∀ p : Bool,
      isValidGitHubOwner owner = true → isValidGitHubRepo repo = true →
      env.fetchOutcome = .response 404 p →
      handleGitHubLaunch owner repo env =
        (.badRequest ("Repository not found. Please check the owner and repository name."),
         [.fetchRepo])) ∧
    (∀ owner repo : String, ∀ env : LaunchEnv,
      isValidGitHubOwner owner = true → isValidGitHubRepo repo = true →
      env.fetchOutcome = .response 200 true →
      handleGitHubLaunch owner repo env =
        (.badRequest ("This repository is private. Only public repositories are supported."),
         [.fetchRepo])) ∧
    (∀ owner repo : String, ∀ env : LaunchEnv, ∀ c : Nat, ∀ p : Bool,
      isValidGitHubOwner owner = true → isValidGitHubRepo repo = true →
      c ≠ 200 → c ≠ 404 → c ≠ 403 →
      env.fetchOutcome = .response c p →
      handleGitHubLaunch owner repo env =
        (.badRequest ("Failed to verify repository (HTTP " ++ toString c ++ ")"),
         [.fetchRepo])) := by
  refine ⟨?_, ?_, ?_, ?_, ?_, ?_⟩
  · intro p
    rfl
  · rfl
  · intro owner repo env p
    exact handleGitHubLaunch_fetch_congr owner repo env (.response 403 p) .networkError rfl
  · intro owner repo env p h1 h2 h3
    simp [handleGitHubLaunch, h1, h2, h3, isRepoPublic]
  · intro owner repo env h1 h2 h3
    simp [handleGitHubLaunch, h1, h2, h3, isRepoPublic]
  · intro owner repo env c p h1 h2 hc200 hc404 hc403 h3
    have b200 : (c == 200) = false := by simpa using hc200
    have b404 : (c == 404) = false := by simpa using hc404
    have b403 : (c == 403) = false := by simpa using hc403
    simp [handleGitHubLaunch, h1, h2, h3, isRepoPublic, b200, b404, b403]

/-- C10 witness: concrete instances of each hypothesis-bearing part. -/
theorem repo_check_fail_open_witness :
    (handleGitHubLaunch "octocat" "Hello-World"
        { baseLaunchEnv with fetchOutcome := .response 403 false } =
      handleGitHubLaunch "octocat" "Hello-World"
        { baseLaunchEnv with fetchOutcome := .networkError }) ∧
    (handleGitHubLaunch "octocat" "Hello-World"
        { baseLaunchEnv with fetchOutcome := .response 404 false } =
      (.badRequest ("Repository not found. Please check the owner and repository name."),
       [.fetchRepo])) ∧
    (handleGitHubLaunch "octocat" "Hello-World"
        { baseLaunchEnv with fetchOutcome := .response 200 true } =
      (.badRequest ("This repository is private. Only public repositories are supported."),
       [.fetchRepo])) ∧
    (handleGitHubLaunch "octocat" "Hello-World"
        { baseLaunchEnv with fetchOutcome := .response 500 false } =
      (.badRequest ("Failed to verify repository (HTTP 500)"), [.fetchRepo])) := by
  refine ⟨repo_check_fail_open.2.2.1 _ _ _ _,
    repo_check_fail_open.2.2.2.1 _ _ _ false (by decide) (by decide) rfl,
    repo_check_fail_open.2.2.2.2.1 _ _ _ (by decide) (by decide) rfl,
    repo_check_fail_open.2.2.2.2.2 _ _ _ 500 false (by decide) (by decide)
      (by decide) (by decide) (by decide) rfl⟩

/-- C8: the repository lock written at the start of the create-session
segment is deleted on every outcome of the attempt — when the
post-acquisition re-check finds an existing session, when the new session
is created, and when creation throws: the segment's effect trace begins by
writing the lock and applying the whole trace to any store leaves the lock
key unmapped. -/
theorem lock_always_released (env : LaunchEnv)
    (cacheKey lockKey repoFullName repoUrl : String)
    (store : String → Option String) :
    (createSessionSegment env cacheKey lockKey repoFullName repoUrl).2.head? =
      some (.kvPut lockKey env.lockValue) ∧
    applyEffs store (createSessionSegment env cacheKey lockKey repoFullName repoUrl).2
      lockKey = none := by
  cases hre : env.getSessionRecheck with
  | some id =>
    constructor
    · simp [createSessionSegment, hre]
    · simp [createSessionSegment, hre, applyEffs, applyEff]
  | none =>
    cases hth : env.createThrows
    · constructor
      · simp [createSessionSegment, hre, hth]
      · simp [createSessionSegment, hre, hth, applyEffs, applyEff]
    · constructor
      · simp [createSessionSegment, hre, hth]
      · simp [createSessionSegment, hre, hth, applyEffs, applyEff]

/-- C1: a launch that observes an existing active-session index entry
returns that session id without creating anything — on the initial
fast-path lookup the effect trace is just the metadata fetch and the
index read, and on the post-acquisition re-check the segment only writes
and deletes the lock around the re-check read. -/
theorem launch_dedup_idempotent :
    (∀ owner repo : String, ∀ env : LaunchEnv, ∀ id : String,
      isValidGitHubOwner owner = true → isValidGitHubRepo repo = true →
      (isRepoPublic env.fetchOutcome).accessible = true →
      env.getSession0 = some id →
      handleGitHubLaunch owner repo env =
        (.redirect id, [.fetchRepo, .kvGet ("session:" ++ (owner ++ "/" ++ repo))])) ∧
    (∀ env : LaunchEnv, ∀ cacheKey lockKey repoFullName repoUrl id : String,
      env.getSessionRecheck = some id →
      createSessionSegment env cacheKey lockKey repoFullName repoUrl =
        (.redirect id, [.kvPut lockKey env.lockValue, .kvGet cacheKey, .kvDelete lockKey])) := by
  constructor
  · intro owner repo env id h1 h2 h3 h4
    simp [handleGitHubLaunch, h1, h2, h3, h4]
  · intro env cacheKey lockKey repoFullName repoUrl id h
    simp [createSessionSegment, h]

/-- C1 witness: both parts at concrete inputs. -/
theorem launch_dedup_idempotent_witness :
    (handleGitHubLaunch "octocat" "Hello-World"
        { baseLaunchEnv with getSession0 := some "sid-existing" } =
      (.redirect "sid-existing", [.fetchRepo, .kvGet ("session:octocat/Hello-World")])) ∧
    (createSessionSegment { baseLaunchEnv with getSessionRecheck := some "sid-race" }
        "session:octocat/Hello-World" "lock:octocat/Hello-World"
        "octocat/Hello-World" "https://github.com/octocat/Hello-World.git" =
      (.redirect "sid-race",
       [.kvPut ("lock:octocat/Hello-World") "lock-token",
        .kvGet ("session:octocat/Hello-World"),
        .kvDelete ("lock:octocat/Hello-World")])) := by
  constructor
  · have h := launch_dedup_idempotent.1 "octocat" "Hello-World"
      { baseLaunchEnv with getSession0 := some "sid-existing" } "sid-existing"
      (by decide) (by decide) rfl rfl
    simpa using h
  · have h := launch_dedup_idempotent.2
      { baseLaunchEnv with getSessionRecheck := some "sid-race" }
      "session:octocat/Hello-World" "lock:octocat/Hello-World"
      "octocat/Hello-World" "https://github.com/octocat/Hello-World.git" "sid-race" rfl
    simpa using h

/-- The wait loop's final iteration index never precedes its start. -/
theorem lockWaitAux_start_le (env : LaunchEnv) :
    ∀ fuel i, i ≤ (lockWaitAux env fuel i).2 := by
  intro fuel
  induction fuel with
  | zero => intro i; exact Nat.le_refl i
  | succ fuel ih =>
    intro i
    simp only [lockWaitAux]
    by_cases he : env.elapsed i ≥ 5000
    · simp [he]
    · rw [if_neg he]
      cases hs : env.pollSession i
      · cases hl : env.pollLock i
        · simp
        · simp only []
          have := ih (i + 1)
          omega
      · simp

/-- When every iteration takes at least one 500ms sleep, the wait loop
with fuel reaching iteration 10 stops by iteration 10 and never exhausts
its fuel. -/
theorem lockWaitAux_bound (env : LaunchEnv) (h : ∀ j, 500 * j ≤ env.elapsed j) :
    ∀ fuel i, 11 ≤ fuel + i → i ≤ 10 →
      (lockWaitAux env fuel i).2 ≤ 10 ∧ (lockWaitAux env fuel i).1 ≠ .fuelOut := by
  intro fuel
  induction fuel with
  | zero =>
    intro i h1 h2
    omega
  | succ fuel ih =>
    intro i h1 h2
    simp only [lockWaitAux]
    by_cases he : env.elapsed i ≥ 5000
    · simp [he, h2]
    · have hi : i < 10 := by
        have := h i
        omega
      rw [if_neg he]
      cases hs : env.pollSession i
      · cases hl : env.pollLock i
        · simp
          omega
        · exact ih (i + 1) (by omega) (by omega)
      · simp
        omega

/-- A timed-out wait observed, at every iteration it polled, no session
and a held lock. -/
theorem lockWaitAux_timedOut_polls (env : LaunchEnv) :
    ∀ fuel i0, (lockWaitAux env fuel i0).1 = .timedOut →
      ∀ i, i0 ≤ i → i < (lockWaitAux env fuel i0).2 →
        env.pollSession i = none ∧ env.pollLock i ≠ none := by
  intro fuel
  induction fuel with
  | zero =>
    intro i0 hto
    simp [lockWaitAux] at hto
  | succ fuel ih =>
    intro i0 hto i hi0 hin
    simp only [lockWaitAux] at hto hin
    by_cases he : env.elapsed i0 ≥ 5000
    · rw [if_pos he] at hin
      omega
    · rw [if_neg he] at hto hin
      cases hs : env.pollSession i0
      · rw [hs] at hto hin
        cases hl : env.pollLock i0
        · rw [hl] at hto
          simp at hto
        · rw [hl] at hto hin
          rcases Nat.eq_or_lt_of_le hi0 with heq | hlt
          · subst heq
            exact ⟨hs, by simp [hl]⟩
          · exact ih (i0 + 1) hto i (by omega) hin
      · rw [hs] at hto
        simp at hto

/-- A launch that observed a held lock proceeds to attempt acquisition:
its effect trace writes the lock key (from C8's segment-start lemma). -/
theorem createSessionSegment_writes_lock (env : LaunchEnv) (ck lk r u : String) :
    Eff.kvPut lk env.lockValue ∈ (createSessionSegment env ck lk r u).2 := by
  cases hre : env.getSessionRecheck <;> cases hth : env.createThrows <;>
    simp [createSessionSegment, hre, hth]

/-- C4: a launch that observes a held lock polls at a fixed 500ms interval
for at most 5 seconds (at most 10 polls, and the loop model never runs
out of fuel when each iteration takes at least 500ms); a timed-out wait
saw, at every poll, no session and a held lock; a session id that appears
during the wait is returned; a wait exhausted with no session surfaces the
503 conflict outcome; and a lock that disappears during the wait lets the
launch proceed to attempt acquisition (it writes the lock key). -/
theorem lock_wait_bounded :
    (∀ env : LaunchEnv, (∀ i, 500 * i ≤ env.elapsed i) →
      ((lockWait env).2 ≤ 10 ∧ (lockWait env).1 ≠ .fuelOut)) ∧
    (∀ env : LaunchEnv, (lockWait env).1 = .timedOut →
      ∀ i, i < (lockWait env).2 → env.pollSession i = none ∧ env.pollLock i ≠ none) ∧
    (∀ owner repo : String, ∀ env : LaunchEnv, ∀ id lockVal : String,
      isValidGitHubOwner owner = true → isValidGitHubRepo repo = true →
      (isRepoPublic env.fetchOutcome).accessible = true →
      env.getSession0 = none → env.getLock0 = some lockVal →
      (lockWait env).1 = .found id →
      (handleGitHubLaunch owner repo env).1 = .redirect id) ∧
    (∀ owner repo : String, ∀ env : LaunchEnv, ∀ lockVal : String,
      isValidGitHubOwner owner = true → isValidGitHubRepo repo = true →
      (isRepoPublic env.fetchOutcome).accessible = true →
      env.getSession0 = none → env.getLock0 = some lockVal →
      (lockWait env).1 = .timedOut → env.getSessionFinal = none →
      (handleGitHubLaunch owner repo env).1 = .unavailable) ∧
    (∀ owner repo : String, ∀ env : LaunchEnv, ∀ lockVal : String,
      isValidGitHubOwner owner = true → isValidGitHubRepo repo = true →
      (isRepoPublic env.fetchOutcome).accessible = true →
      env.getSession0 = none → env.getLock0 = some lockVal →
      (lockWait env).1 = .noLock →
      Eff.kvPut ("lock:" ++ (owner ++ "/" ++ repo)) env.lockValue ∈
        (handleGitHubLaunch owner repo env).2) := by
  refine ⟨?_, ?_, ?_, ?_, ?_⟩
  · intro env h
    exact lockWaitAux_bound env h 11 0 (by omega) (by omega)
  · intro env hto i hin
    exact lockWaitAux_timedOut_polls env 11 0 hto i (Nat.zero_le i) hin
  · intro owner repo env id lockVal h1 h2 h3 h4 h5 hw
    simp [handleGitHubLaunch, h1, h2, h3, h4, h5, hw]
  · intro owner repo env lockVal h1 h2 h3 h4 h5 hw hf
    simp [handleGitHubLaunch, h1, h2, h3, h4, h5, hw, hf]
  · intro owner repo env lockVal h1 h2 h3 h4 h5 hw
    simp [handleGitHubLaunch, h1, h2, h3, h4, h5, hw]
    exact Or.inr (createSessionSegment_writes_lock env _ _ _ _)

/-- C4 witness: the bound, the timed-out semantics, the three wait
outcomes, each at a concrete oracle. -/
theorem lock_wait_bounded_witness :
    ((lockWait { baseLaunchEnv with
        getLock0 := some ("held")
        pollLock := fun _ => some ("held") }).2 ≤ 10 ∧
      (lockWait { baseLaunchEnv with
        getLock0 := some ("held")
        pollLock := fun _ => some ("held") }).1 ≠ .fuelOut) ∧
    ({ baseLaunchEnv with
        getLock0 := some ("held")
        pollLock := fun _ => some ("held") } : LaunchEnv).pollSession 3 = none ∧
    (handleGitHubLaunch "octocat" "Hello-World"
      { baseLaunchEnv with
        getLock0 := some ("held")
        pollLock := fun _ => some ("held")
        pollSession := fun i => if i == 2 then some ("sid-wait") else none }).1 =
      .redirect "sid-wait" ∧
    (handleGitHubLaunch "octocat" "Hello-World"
      { baseLaunchEnv with
        getLock0 := some ("held")
        pollLock := fun _ => some ("held") }).1 = .unavailable ∧
    Eff.kvPut ("lock:octocat/Hello-World") "lock-token" ∈
      (handleGitHubLaunch "octocat" "Hello-World"
        { baseLaunchEnv with
          getLock0 := some ("held")
          pollLock := fun i => if i < 3 then some ("held") else none }).2 := by
  refine ⟨?_, ?_, ?_, ?_, ?_⟩
  · exact lock_wait_bounded.1 _ (fun i => Nat.le_refl _)
  · exact (lock_wait_bounded.2.1 _ (by decide) 3 (by decide)).1
  · exact lock_wait_bounded.2.2.1 "octocat" "Hello-World" _ "sid-wait" "held"
      (by decide) (by decide) rfl rfl rfl (by decide)
  · exact lock_wait_bounded.2.2.2.1 "octocat" "Hello-World" _ "held"
      (by decide) (by decide) rfl rfl rfl (by decide) rfl
  · exact lock_wait_bounded.2.2.2.2 "octocat" "Hello-World" _ "held"
      (by decide) (by decide) rfl rfl rfl (by decide)

/-- A character satisfying a Boolean predicate is beq-distinct from any
character failing it. -/
theorem beq_false_of_pred {p : Char → Bool} {c x : Char} (hc : p c = true)
    (hx : p x = false) : (c == x) = false := by
  cases h : c == x
  · rfl
  · have hcx : c = x := eq_of_beq h
    rw [hcx, hx] at hc
    simp at hc

/-- Characters of a valid env-var name are plain for the word parser: not
a quote, a backslash, a space, or a shell metacharacter. -/
theorem envNameTail_plain {c : Char} (h : isEnvNameTail c = true) :
    (c == '\'') = false ∧ (c == '\\') = false ∧ (c == ' ') = false ∧
      shellMetaChar c = false := by
  have hm : ∀ x : Char, isEnvNameTail x = false → (c == x) = false :=
    fun x hx => beq_false_of_pred h hx
  refine ⟨hm '\'' (by decide), hm '\\' (by decide), hm ' ' (by decide), ?_⟩
  simp only [shellMetaChar, hm ';' (by decide), hm '&' (by decide),
    hm '|' (by decide), hm '<' (by decide), hm '>' (by decide),
    hm '(' (by decide), hm ')' (by decide), hm '$' (by decide),
    hm (Char.ofNat 96) (by decide), hm '"' (by decide), hm '*' (by decide),
    hm '?' (by decide), hm '~' (by decide), hm '#' (by decide),
    hm '\n' (by decide), hm '\t' (by decide), Bool.or_false]

/-- The head class of the env-var name grammar is inside the tail class. -/
theorem envNameHead_tail {c : Char} (h : isEnvNameHead c = true) :
    isEnvNameTail c = true := by
  simp only [isEnvNameHead, Bool.or_eq_true] at h
  rcases h with h | h
  · simp [isEnvNameTail, h]
  · simp [isEnvNameTail, h]

/-- A valid env-var name is nonempty and all its characters are in the
tail class. -/
theorem envVarNameOk_chars {k : String} (h : envVarNameOk k = true) :
    k.data ≠ [] ∧ ∀ c ∈ k.data, isEnvNameTail c = true := by
  unfold envVarNameOk at h
  cases hd : k.data with
  | nil =>
    rw [hd] at h
    simp at h
  | cons c rest =>
    rw [hd] at h
    simp only [Bool.and_eq_true] at h
    obtain ⟨h1, h2⟩ := h
    refine ⟨by simp, ?_⟩
    intro x hx
    rcases List.mem_cons.mp hx with hxc | hmem
    · subst hxc
      exact envNameHead_tail h1
    · exact List.all_eq_true.mp h2 x hmem

/-- One parser step: a plain character extends the current word. -/
theorem shellWordsAux_step_plain {c : Char} (h1 : (c == '\'') = false)
    (h2 : (c == '\\') = false) (h3 : (c == ' ') = false)
    (h4 : shellMetaChar c = false) (X C : List Char) (b : Bool) :
    shellWordsAux (c :: X) false b C = shellWordsAux X false true (c :: C) := by
  rw [shellWordsAux.eq_def]
  simp [h1, h2, h3, h4]

/-- One parser step: an opening single quote. -/
theorem shellWordsAux_step_open (X C : List Char) (b : Bool) :
    shellWordsAux ('\'' :: X) false b C = shellWordsAux X true true C := by
  rw [shellWordsAux.eq_def]
  simp

/-- One parser step: a closing single quote. -/
theorem shellWordsAux_step_close (X C : List Char) (b : Bool) :
    shellWordsAux ('\'' :: X) true b C = shellWordsAux X false true C := by
  rw [shellWordsAux.eq_def]
  simp

/-- One parser step: a literal character inside single quotes. -/
theorem shellWordsAux_step_quoted {c : Char} (h : (c == '\'') = false)
    (X C : List Char) (b : Bool) :
    shellWordsAux (c :: X) true b C = shellWordsAux X true true (c :: C) := by
  rw [shellWordsAux.eq_def]
  simp [h]

/-- One parser step: a backslash escape outside quotes takes the next
character literally. -/
theorem shellWordsAux_step_backslash (d : Char) (X C : List Char) (b : Bool) :
    shellWordsAux ('\\' :: d :: X) false b C = shellWordsAux X false true (d :: C) := by
  rw [shellWordsAux.eq_def]
  simp

/-- One parser step: a space ends the current started word. -/
theorem shellWordsAux_step_space (X C : List Char) :
    shellWordsAux (' ' :: X) false true C =
      (shellWordsAux X false false []).map (fun ws => C.reverse :: ws) := by
  rw [shellWordsAux.eq_def]
  simp

/-- End of input outside quotes with a started word. -/
theorem shellWordsAux_step_end (C : List Char) :
    shellWordsAux [] false true C = some [C.reverse] := by
  rw [shellWordsAux.eq_def]
  simp

/-- Running the word parser over a run of plain characters accumulates
them into the current word. -/
theorem shellWordsAux_plain (cs : List Char) (hcs : ∀ c ∈ cs, isEnvNameTail c = true) :
    ∀ rest b cur, shellWordsAux (cs ++ rest) false b cur =
      shellWordsAux rest false (if cs.isEmpty then b else true) (cs.reverse ++ cur) := by
  induction cs with
  | nil =>
    intro rest b cur
    simp
  | cons c cs ih =>
    intro rest b cur
    obtain ⟨h1, h2, h3, h4⟩ := envNameTail_plain (hcs c (List.mem_cons_self c cs))
    rw [List.cons_append, shellWordsAux_step_plain h1 h2 h3 h4,
      ih (fun x hx => hcs x (List.mem_cons_of_mem c hx))]
    simp [List.append_assoc]

/-- Running the word parser, inside single quotes, over the escaped body
of a value accumulates exactly the original value and ends outside the
quotes: the escape sequence quote-backslash-quote-quote contributes one
literal quote. -/
theorem shellWordsAux_escAux (vs : List Char) :
    ∀ rest cur, shellWordsAux (escAux vs ++ rest) true true cur =
      shellWordsAux rest false true (vs.reverse ++ cur) := by
  induction vs with
  | nil =>
    intro rest cur
    rw [show escAux [] = ['\''] from rfl, List.cons_append, List.nil_append,
      shellWordsAux_step_close]
    simp
  | cons c vs ih =>
    intro rest cur
    by_cases hc : c = '\''
    · subst hc
      rw [show escAux ('\'' :: vs) = '\'' :: '\\' :: '\'' :: '\'' :: escAux vs from by
        simp [escAux]]
      simp only [List.cons_append]
      rw [shellWordsAux_step_close, shellWordsAux_step_backslash,
        shellWordsAux_step_open, ih]
      simp [List.append_assoc]
    · have hcb : (c == '\'') = false := by
        simpa using hc
      rw [show escAux (c :: vs) = c :: escAux vs from by simp [escAux, hcb],
        List.cons_append, shellWordsAux_step_quoted hcb, ih]
      simp [List.append_assoc]

/-- The parser consumes a whole escaped value from inside the opening
quote and yields the single accumulated word. -/
theorem shellWordsAux_escAux_nil (vs cur : List Char) :
    shellWordsAux (escAux vs) true true cur = some [(vs.reverse ++ cur).reverse] := by
  have h := shellWordsAux_escAux vs [] cur
  rw [List.append_nil] at h
  rw [h, shellWordsAux_step_end]

/-- C2: the sanitizer wraps each environment-variable value in single
quotes with every embedded single quote rewritten as
quote-backslash-quote-quote, and the resulting `export` fragment parses as
exactly the two words `export` and `NAME=value` with the original value
verbatim — a `some` result of `shellWords` certifies that the fragment
contains no unquoted shell metacharacter, hence sets the variable to
exactly the original value and performs no additional command. -/
theorem env_value_escaping_round_trip (k v : String) (hk : envVarNameOk k = true) :
    shellWords (exportFragment k v) =
      some [['e', 'x', 'p', 'o', 'r', 't'], k.data ++ '=' :: v.data] := by
  obtain ⟨hne, hall⟩ := envVarNameOk_chars hk
  unfold shellWords
  have hdata : (exportFragment k v).data =
      'e' :: 'x' :: 'p' :: 'o' :: 'r' :: 't' :: ' ' ::
        (k.data ++ '=' :: '\'' :: escAux v.data) := by
    simp [exportFragment, escapeShellArg, String.data_append]
  rw [hdata]
  rw [shellWordsAux_step_plain (by decide) (by decide) (by decide) (by decide)]
  rw [shellWordsAux_step_plain (by decide) (by decide) (by decide) (by decide)]
  rw [shellWordsAux_step_plain (by decide) (by decide) (by decide) (by decide)]
  rw [shellWordsAux_step_plain (by decide) (by decide) (by decide) (by decide)]
  rw [shellWordsAux_step_plain (by decide) (by decide) (by decide) (by decide)]
  rw [shellWordsAux_step_plain (by decide) (by decide) (by decide) (by decide)]
  rw [shellWordsAux_step_space]
  rw [shellWordsAux_plain k.data hall]
  have hkne : k.data.isEmpty = false := by
    cases hd : k.data with
    | nil => exact absurd hd hne
    | cons c rest => rfl
  rw [hkne]
  simp only [Bool.false_eq_true, if_false]
  rw [shellWordsAux_step_plain (by decide) (by decide) (by decide) (by decide)]
  rw [shellWordsAux_step_open]
  rw [shellWordsAux_escAux_nil]
  simp [List.reverse_append]

/-- C2 witness: the escaping round-trip at the specification's example
value `O'Brien; rm -rf /`. -/
theorem env_value_escaping_round_trip_witness :
    envVarNameOk "DB_USER" = true ∧
    shellWords (exportFragment "DB_USER" obrienValue) =
      some [['e', 'x', 'p', 'o', 'r', 't'], ("DB_USER").data ++ '=' :: obrienValue.data] :=
  ⟨by decide, env_value_escaping_round_trip "DB_USER" obrienValue (by decide)⟩

/-- When the env-var map contains an invalid name, the builder throws the
error of the first offending name, which is in the map. -/
theorem buildEnvVarsStr_error_of_bad (l : List (String × String))
    (h : ∃ kv ∈ l, envVarNameOk kv.1 = false) :
    ∃ k, envVarNameOk k = false ∧ (∃ v, (k, v) ∈ l) ∧
      buildEnvVarsStr l = Except.error ("Invalid environment variable name: " ++ k) := by
  induction l with
  | nil => simp at h
  | cons kv rest ih =>
    cases hk : envVarNameOk kv.1 with
    | false =>
      refine ⟨kv.1, hk, ⟨kv.2, by simp⟩, ?_⟩
      simp [buildEnvVarsStr, hk]
    | true =>
      have h' : ∃ kv2 ∈ rest, envVarNameOk kv2.1 = false := by
        rcases h with ⟨kv2, hmem, hbad⟩
        rcases List.mem_cons.mp hmem with heq | hmem2
        · subst heq
          rw [hk] at hbad
          simp at hbad
        · exact ⟨kv2, hmem2, hbad⟩
      rcases ih h' with ⟨k, hk1, ⟨v, hv⟩, heq⟩
      refine ⟨k, hk1, ⟨v, List.mem_cons_of_mem kv hv⟩, ?_⟩
      simp [buildEnvVarsStr, hk, heq]

/-- When every env-var name is valid, the builder succeeds. -/
theorem buildEnvVarsStr_ok_of_names (l : List (String × String))
    (h : ∀ kv ∈ l, envVarNameOk kv.1 = true) :
    ∃ s, buildEnvVarsStr l = Except.ok s := by
  induction l with
  | nil => exact ⟨"", rfl⟩
  | cons kv rest ih =>
    rcases ih (fun x hx => h x (List.mem_cons_of_mem kv hx)) with ⟨s, hs⟩
    exact ⟨if s == "" then exportFragment kv.1 kv.2
           else exportFragment kv.1 kv.2 ++ " && " ++ s,
      by simp [buildEnvVarsStr, h kv (List.mem_cons_self kv rest), hs]⟩

/-- C3: an environment-variable map containing a name that fails
`^[A-Za-z_][A-Za-z0-9_]*$` makes the start phase abort the whole launch:
the session ends in status `error` with the invalid-name error recorded as
the session's error, the application is never started (no start exec
happens and `running` is never entered), rather than the variable being
silently omitted or mangled. -/
theorem env_name_rejection (repoFullName : String) (env : InitEnv)
    (hclone : env.cloneResult.success = true)
    (hbuild : ∀ bc, env.environment.buildCommand = some bc → env.buildResult.success = true)
    (hbad : ∃ kv ∈ env.environment.envVars, envVarNameOk kv.1 = false) :
    ∃ k, envVarNameOk k = false ∧ (∃ v, (k, v) ∈ env.environment.envVars) ∧
      (runInitSession repoFullName env (initialSession repoFullName)).status = .error ∧
      (runInitSession repoFullName env (initialSession repoFullName)).error =
        some ("Invalid environment variable name: " ++ k) ∧
      (∀ c, SandboxExec.startE c ∉
        (runInitSession repoFullName env (initialSession repoFullName)).execs) ∧
      SessionStatus.running ∉
        (runInitSession repoFullName env (initialSession repoFullName)).statusTrace := by
  obtain ⟨k, hk, ⟨v, hv⟩, herr⟩ := buildEnvVarsStr_error_of_bad _ hbad
  refine ⟨k, hk, ⟨v, hv⟩, ?_⟩
  cases hic : env.environment.installCommand with
  | none =>
    cases hbc : env.environment.buildCommand with
    | none =>
      simp [runInitSession, initSteps, installPhase, buildPhase, startPhase,
        hclone, hic, hbc, herr, setStatus, addLog, recordExec, initialSession]
    | some bc =>
      have hbs := hbuild bc hbc
      simp [runInitSession, initSteps, installPhase, buildPhase, startPhase,
        hclone, hic, hbc, hbs, herr, setStatus, addLog, recordExec, initialSession]
  | some ic =>
    by_cases hw : (!env.installResult.success && env.installResult.exitCode != 0) = true
    · cases hbc : env.environment.buildCommand with
      | none =>
        simp [runInitSession, initSteps, installPhase, buildPhase, startPhase,
          hclone, hic, hbc, hw, herr, setStatus, addLog, recordExec, initialSession]
      | some bc =>
        have hbs := hbuild bc hbc
        simp [runInitSession, initSteps, installPhase, buildPhase, startPhase,
          hclone, hic, hbc, hbs, hw, herr, setStatus, addLog, recordExec, initialSession]
    · cases hbc : env.environment.buildCommand with
      | none =>
        simp [runInitSession, initSteps, installPhase, buildPhase, startPhase,
          hclone, hic, hbc, hw, herr, setStatus, addLog, recordExec, initialSession]
      | some bc =>
        have hbs := hbuild bc hbc
        simp [runInitSession, initSteps, installPhase, buildPhase, startPhase,
          hclone, hic, hbc, hbs, hw, herr, setStatus, addLog, recordExec, initialSession]

/-- C3 witness: a map with name `1BAD` aborts the start phase at a
concrete oracle. -/
theorem env_name_rejection_witness :
    ∃ k, envVarNameOk k = false ∧
      (∃ v, (k, v) ∈ ({ baseEnvConfig with
        envVars := [("1BAD", "x")] } : EnvironmentConfig).envVars) ∧
      (runInitSession "octocat/Hello-World"
        { baseInitEnv with environment := { baseEnvConfig with envVars := [("1BAD", "x")] } }
        (initialSession "octocat/Hello-World")).status = .error ∧
      (runInitSession "octocat/Hello-World"
        { baseInitEnv with environment := { baseEnvConfig with envVars := [("1BAD", "x")] } }
        (initialSession "octocat/Hello-World")).error =
        some ("Invalid environment variable name: " ++ k) ∧
      (∀ c, SandboxExec.startE c ∉
        (runInitSession "octocat/Hello-World"
          { baseInitEnv with environment := { baseEnvConfig with envVars := [("1BAD", "x")] } }
          (initialSession "octocat/Hello-World")).execs) ∧
      SessionStatus.running ∉
        (runInitSession "octocat/Hello-World"
          { baseInitEnv with environment := { baseEnvConfig with envVars := [("1BAD", "x")] } }
          (initialSession "octocat/Hello-World")).statusTrace :=
  env_name_rejection "octocat/Hello-World"
    { baseInitEnv with environment := { baseEnvConfig with envVars := [("1BAD", "x")] } }
    (by decide)
    (by intro bc h; simp [baseEnvConfig, baseInitEnv] at h)
    ⟨("1BAD", "x"), by simp, by decide⟩

/-- C6: a failure during the cloning or building phase is fatal — the
session transitions to terminal status `error` with the failure message
recorded and later phases never run — while a failure with non-zero exit
during the installing phase only appends a warn log entry and execution
proceeds to the next phase. -/
theorem phase_fatality :
    (∀ repoFullName : String, ∀ env : InitEnv,
      env.cloneResult.success = false →
      (runInitSession repoFullName env (initialSession repoFullName)).status = .error ∧
      (runInitSession repoFullName env (initialSession repoFullName)).error =
        some ("Clone failed: " ++ env.cloneResult.stderr) ∧
      (runInitSession repoFullName env (initialSession repoFullName)).statusTrace =
        [.initializing, .cloning, .error]) ∧
    (∀ repoFullName : String, ∀ env : InitEnv, ∀ bc : String,
      env.cloneResult.success = true →
      env.environment.buildCommand = some bc →
      env.buildResult.success = false →
      (runInitSession repoFullName env (initialSession repoFullName)).status = .error ∧
      (runInitSession repoFullName env (initialSession repoFullName)).error =
        some ("Build failed: " ++ env.buildResult.stderr) ∧
      SessionStatus.starting ∉
        (runInitSession repoFullName env (initialSession repoFullName)).statusTrace ∧
      (∀ c, SandboxExec.startE c ∉
        (runInitSession repoFullName env (initialSession repoFullName)).execs)) ∧
    (∀ repoFullName : String, ∀ env : InitEnv, ∀ ic : String,
      env.cloneResult.success = true →
      env.environment.installCommand = some ic →
      env.installResult.success = false →
      env.installResult.exitCode ≠ 0 →
      ({ level := .warn, message := "Install completed with warnings",
         phase := .installing } : LogEntry) ∈
        (runInitSession repoFullName env (initialSession repoFullName)).logs ∧
      ((∀ bc, env.environment.buildCommand = some bc → env.buildResult.success = true) →
        SessionStatus.starting ∈
          (runInitSession repoFullName env (initialSession repoFullName)).statusTrace)) := by
  refine ⟨?_, ?_, ?_⟩
  · intro repoFullName env hclone
    simp [runInitSession, initSteps, hclone, setStatus, addLog, recordExec,
      initialSession]
  · intro repoFullName env bc hclone hbc hbf
    cases hic : env.environment.installCommand with
    | none =>
      simp [runInitSession, initSteps, installPhase, buildPhase, hclone, hic,
        hbc, hbf, setStatus, addLog, recordExec, initialSession]
    | some ic =>
      by_cases hw : (!env.installResult.success && env.installResult.exitCode != 0) = true
      · simp [runInitSession, initSteps, installPhase, buildPhase, hclone, hic,
          hbc, hbf, hw, setStatus, addLog, recordExec, initialSession]
      · simp [runInitSession, initSteps, installPhase, buildPhase, hclone, hic,
          hbc, hbf, hw, setStatus, addLog, recordExec, initialSession]
  · intro repoFullName env ic hclone hic hif hie
    have hw : (!env.installResult.success && env.installResult.exitCode != 0) = true := by
      simp [hif, hie]
    cases hbc : env.environment.buildCommand with
    | none =>
      cases hvs : buildEnvVarsStr env.environment.envVars with
      | error m =>
        simp [runInitSession, initSteps, installPhase, buildPhase, startPhase,
          hclone, hic, hbc, hw, hvs, setStatus, addLog, recordExec, initialSession]
      | ok s =>
        by_cases hp : (env.environment.previewable && env.environment.port != 0) = true
        · cases hex : env.exposeResult with
          | some url =>
            simp [runInitSession, initSteps, installPhase, buildPhase, startPhase,
              hclone, hic, hbc, hw, hvs, hp, hex, setStatus, addLog, recordExec,
              initialSession]
          | none =>
            simp [runInitSession, initSteps, installPhase, buildPhase, startPhase,
              hclone, hic, hbc, hw, hvs, hp, hex, setStatus, addLog, recordExec,
              initialSession]
        · simp [runInitSession, initSteps, installPhase, buildPhase, startPhase,
            hclone, hic, hbc, hw, hvs, hp, setStatus, addLog, recordExec,
            initialSession]
    | some bc =>
      cases hbf : env.buildResult.success with
      | false =>
        constructor
        · simp [runInitSession, initSteps, installPhase, buildPhase, hclone,
            hic, hbc, hbf, hw, setStatus, addLog, recordExec, initialSession]
        · intro hall
          have htrue := hall bc rfl
          simp [hbf] at htrue
      | true =>
        cases hvs : buildEnvVarsStr env.environment.envVars with
        | error m =>
          simp [runInitSession, initSteps, installPhase, buildPhase, startPhase,
            hclone, hic, hbc, hbf, hw, hvs, setStatus, addLog, recordExec,
            initialSession]
        | ok s =>
          by_cases hp : (env.environment.previewable && env.environment.port != 0) = true
          · cases hex : env.exposeResult with
            | some url =>
              simp [runInitSession, initSteps, installPhase, buildPhase, startPhase,
                hclone, hic, hbc, hbf, hw, hvs, hp, hex, setStatus, addLog,
                recordExec, initialSession]
            | none =>
              simp [runInitSession, initSteps, installPhase, buildPhase, startPhase,
                hclone, hic, hbc, hbf, hw, hvs, hp, hex, setStatus, addLog,
                recordExec, initialSession]
          · simp [runInitSession, initSteps, installPhase, buildPhase, startPhase,
              hclone, hic, hbc, hbf, hw, hvs, hp, setStatus, addLog, recordExec,
              initialSession]

/-- C6 witness: a clone failure, a build failure and a non-fatal install
failure at concrete oracles. -/
theorem phase_fatality_witness :
    ((runInitSession "octocat/Hello-World"
        { baseInitEnv with cloneResult := failExec }
        (initialSession "octocat/Hello-World")).status = .error ∧
      (runInitSession "octocat/Hello-World"
        { baseInitEnv with cloneResult := failExec }
        (initialSession "octocat/Hello-World")).error = some ("Clone failed: boom")) ∧
    ((runInitSession "octocat/Hello-World"
        { baseInitEnv with
          environment := { baseEnvConfig with buildCommand := some ("npm run build") }
          buildResult := failExec }
        (initialSession "octocat/Hello-World")).status = .error ∧
      (runInitSession "octocat/Hello-World"
        { baseInitEnv with
          environment := { baseEnvConfig with buildCommand := some ("npm run build") }
          buildResult := failExec }
        (initialSession "octocat/Hello-World")).error = some ("Build failed: boom")) ∧
    ({ level := .warn, message := "Install completed with warnings",
       phase := .installing } : LogEntry) ∈
      (runInitSession "octocat/Hello-World"
        { baseInitEnv with
          environment := { baseEnvConfig with installCommand := some ("npm install") }
          installResult := failExec }
        (initialSession "octocat/Hello-World")).logs ∧
    SessionStatus.starting ∈
      (runInitSession "octocat/Hello-World"
        { baseInitEnv with
          environment := { baseEnvConfig with installCommand := some ("npm install") }
          installResult := failExec }
        (initialSession "octocat/Hello-World")).statusTrace := by
  have ha := phase_fatality.1 "octocat/Hello-World"
    { baseInitEnv with cloneResult := failExec } (by decide)
  have hb := phase_fatality.2.1 "octocat/Hello-World"
    { baseInitEnv with
      environment := { baseEnvConfig with buildCommand := some ("npm run build") }
      buildResult := failExec } "npm run build" (by decide) (by decide) (by decide)
  have hc := phase_fatality.2.2 "octocat/Hello-World"
    { baseInitEnv with
      environment := { baseEnvConfig with installCommand := some ("npm install") }
      installResult := failExec } "npm install" (by decide) (by decide) (by decide)
    (by decide)
  exact ⟨⟨ha.1, ha.2.1⟩, ⟨hb.1, hb.2.1⟩, hc.1,
    hc.2 (by intro bc h; simp [baseInitEnv, baseEnvConfig] at h)⟩

/-- C7: with neither an install command nor a build command, phase
execution passes through exactly the status sequence initializing,
cloning, analyzing, starting, running; the installing and building states
are never entered and no log entry is appended during those phases. -/
theorem phase_skip (repoFullName : String) (env : InitEnv)
    (hic : env.environment.installCommand = none)
    (hbc : env.environment.buildCommand = none)
    (hclone : env.cloneResult.success = true)
    (hnames : ∀ kv ∈ env.environment.envVars, envVarNameOk kv.1 = true) :
    (runInitSession repoFullName env (initialSession repoFullName)).statusTrace =
      [.initializing, .cloning, .analyzing, .starting, .running] ∧
    SessionStatus.installing ∉
      (runInitSession repoFullName env (initialSession repoFullName)).statusTrace ∧
    SessionStatus.building ∉
      (runInitSession repoFullName env (initialSession repoFullName)).statusTrace ∧
    ∀ e ∈ (runInitSession repoFullName env (initialSession repoFullName)).logs,
      e.phase ≠ .installing ∧ e.phase ≠ .building := by
  obtain ⟨s, hs⟩ := buildEnvVarsStr_ok_of_names _ hnames
  by_cases hp : (env.environment.previewable && env.environment.port != 0) = true
  · cases hex : env.exposeResult with
    | some url =>
      simp [runInitSession, initSteps, installPhase, buildPhase, startPhase,
        hclone, hic, hbc, hs, hp, hex, setStatus, addLog, recordExec,
        initialSession]
    | none =>
      simp [runInitSession, initSteps, installPhase, buildPhase, startPhase,
        hclone, hic, hbc, hs, hp, hex, setStatus, addLog, recordExec,
        initialSession]
  · simp [runInitSession, initSteps, installPhase, buildPhase, startPhase,
      hclone, hic, hbc, hs, hp, setStatus, addLog, recordExec, initialSession]

/-- C7 witness: the skip sequence at a concrete oracle. -/
theorem phase_skip_witness :
    (runInitSession "octocat/Hello-World" baseInitEnv
      (initialSession "octocat/Hello-World")).statusTrace =
      [.initializing, .cloning, .analyzing, .starting, .running] ∧
    SessionStatus.installing ∉
      (runInitSession "octocat/Hello-World" baseInitEnv
        (initialSession "octocat/Hello-World")).statusTrace ∧
    SessionStatus.building ∉
      (runInitSession "octocat/Hello-World" baseInitEnv
        (initialSession "octocat/Hello-World")).statusTrace ∧
    ∀ e ∈ (runInitSession "octocat/Hello-World" baseInitEnv
      (initialSession "octocat/Hello-World")).logs,
      e.phase ≠ .installing ∧ e.phase ≠ .building :=
  phase_skip "octocat/Hello-World" baseInitEnv (by decide) (by decide) (by decide)
    (by intro kv h; simp [baseInitEnv, baseEnvConfig] at h)

/-- C5: the owner `-abc` fails the Validator grammar and
`handleGitHubLaunch` (src/index.ts) rejects it with the 400 outcome and an
empty effect trace — no fetch, no storage access, no sandbox invocation.
The Hono-app launch route revision cited by the claim, however, performs
durable-store reads (IP rate counter, per-repository counter, active
index) and proceeds all the way to session creation for the same invalid
owner, never returning an invalid-input response. -/
theorem launch_validation_before_effects :
    isValidGitHubOwner "-abc" = false ∧
    handleGitHubLaunch "-abc" "x" baseLaunchEnv =
      (.badRequest ("Invalid GitHub owner name"), ([] : List Eff)) ∧
    honoLaunchRoute "-abc" "x" "203.0.113.7" honoEnvC5 =
      (.sessionPage "sid-new",
       [.kvGet ("session_rate:203.0.113.7"),
        .kvGet ("repo_sessions:-abc/x"),
        .kvGet ("active:-abc/x"),
        .kvPut ("repo_sessions:-abc/x") "1",
        .kvPut ("session_rate:203.0.113.7") "1",
        .kvPut ("active:-abc/x") "sid-new",
        .kvPut ("session:sid-new")
          (sessionInfoValue "sid-new" "-abc/x" "https://github.com/-abc/x.git" 0),
        .waitUntilInit "sid-new"]) := by
  refine ⟨by decide, by decide, by decide⟩

end Cloudx
